import Mathlib

/-!
# Server-side table: query state, selection reconciliation, view projection

A shallow embedding of the `ServerSideTable` component of
`src/pages/table/server-side-table.index.jsx`.

* The seven `useState` / `useLocalStorage` cells of the component are the fields of `State`.
* Every event handler of the component is the list of state-setter calls it makes, in source
  order; a handler closes over the state of the render that created it.
* `params` is the query object built on every render and handed to `useDistributions`.
* `render` is the JSX returned by the component, as a record of the props it passes down.

The handlers of the form page (`src/pages/form/form-unsaved-changes.index.jsx`) and of the
one-click delete page (`src/pages/delete/delete-one-click.index.jsx`) follow in namespaces of
their own; there a handler step is a state-setter call or an operation on the event object.
-/

namespace ServerSideTable

/-! ## Data model -/

/-- A row object of the table. JavaScript compares objects by reference (lodash uses
`SameValueZero`), so a row is represented by its object identity. -/
abbrev Row := Nat

/-- A column definition object, represented by its column id. -/
abbrev ColumnDefinition := String

/-- The preferences value kept by `useLocalStorage`; the component reads `pageSize`,
`visibleContent` and `wrapLines` from it. -/
structure Preferences where
  pageSize : Int
  visibleContent : List String
  wrapLines : Bool
deriving DecidableEq, Repr

/-- The props of `ServerSideTable` that carry data. -/
structure Props where
  columnDefinitions : List ColumnDefinition
deriving DecidableEq, Repr

/-- The state cells of `ServerSideTable`, in declaration order (lines 21-27). -/
structure State where
  selectedItems : List Row
  preferences : Preferences
  descendingSorting : Bool
  currentPageIndex : Int
  filteringText : String
  delayedFilteringText : String
  sortingColumn : Option ColumnDefinition
deriving DecidableEq, Repr

/-- The state at mount: the initial values given to `useState`, the stored (or default)
preferences given by `useLocalStorage`, and `columnDefinitions[0]`, which is `undefined`
for an empty array. -/
def initialState (props : Props) (storedPreferences : Preferences) : State :=
  { selectedItems := []
    preferences := storedPreferences
    descendingSorting := false
    currentPageIndex := 1
    filteringText := ""
    delayedFilteringText := ""
    sortingColumn := props.columnDefinitions.head? }

/-- The field `params.pagination`. -/
structure PaginationParams where
  currentPageIndex : Int
  pageSize : Int
deriving DecidableEq, Repr

/-- The field `params.sorting`. -/
structure SortingParams where
  sortingColumn : Option ColumnDefinition
  sortingDescending : Bool
deriving DecidableEq, Repr

/-- The field `params.filtering`. -/
structure FilteringParams where
  filteringText : String
deriving DecidableEq, Repr

/-- The query object `params` (lines 30-42). -/
structure Params where
  pagination : PaginationParams
  sorting : SortingParams
  filtering : FilteringParams
deriving DecidableEq, Repr

/-- The query built on every render from the current state (lines 29-42). -/
def params (s : State) : Params :=
  { pagination :=
      { currentPageIndex := s.currentPageIndex
        pageSize := s.preferences.pageSize }
    sorting :=
      { sortingColumn := s.sortingColumn
        sortingDescending := s.descendingSorting }
    filtering :=
      { filteringText := s.delayedFilteringText } }

/-- What `useDistributions(params)` returns to the component (line 43). -/
structure HookResult where
  items : List Row
  loading : Bool
  totalCount : Nat
  pagesCount : Nat
  currentPageIndex : Int
deriving DecidableEq, Repr

/-! ## lodash `intersection` -/

/-- The main loop of lodash `baseIntersection` for two arrays without iteratee or comparator:
it walks the first array while the result is shorter than `maxLength`, and pushes a value
that is not yet in the result and is included in the other array. The set caches lodash
builds for long arrays answer the same membership questions, and the `-0` normalisation does
not concern row objects. -/
def intersectionLoop {α : Type} [DecidableEq α] (other : List α) (maxLength : Nat) :
    List α → List α → List α
  | [], result => result
  | value :: rest, result =>
    if result.length < maxLength then
      if !(result.contains value) && other.contains value then
        intersectionLoop other maxLength rest (result ++ [value])
      else
        intersectionLoop other maxLength rest result
    else
      result

/-- The call `intersection(array, other)` of lodash: `maxLength` is the smaller of the two
lengths and the result starts empty. -/
def intersection {α : Type} [DecidableEq α] (array other : List α) : List α :=
  intersectionLoop other (min array.length other.length) array []

/-! ## State setters and event handlers -/

/-- One call of a state setter. `setSelectedItems` takes the updater form used by the items
effect; a plain value is the constant updater. -/
inductive Setter where
  | setSelectedItems (update : List Row → List Row)
  | setPreferences (value : Preferences)
  | setDescendingSorting (value : Bool)
  | setCurrentPageIndex (value : Int)
  | setFilteringText (value : String)
  | setDelayedFilteringText (value : String)
  | setSortingColumn (value : Option ColumnDefinition)

/-- The effect of one setter call on the state. -/
def Setter.apply (s : State) : Setter → State
  | .setSelectedItems update => { s with selectedItems := update s.selectedItems }
  | .setPreferences value => { s with preferences := value }
  | .setDescendingSorting value => { s with descendingSorting := value }
  | .setCurrentPageIndex value => { s with currentPageIndex := value }
  | .setFilteringText value => { s with filteringText := value }
  | .setDelayedFilteringText value => { s with delayedFilteringText := value }
  | .setSortingColumn value => { s with sortingColumn := value }

/-- The `detail` of a sorting-change event of the Table. -/
structure SortingDetail where
  isDescending : Bool
  sortingColumn : ColumnDefinition
deriving DecidableEq, Repr

/-- The effect on `[items]` (lines 45-47). -/
def itemsEffect (items : List Row) : List Setter :=
  [.setSelectedItems (fun oldSelected => intersection items oldSelected)]

/-- The handler `onSortingChange` (lines 49-52). -/
def onSortingChange (detail : SortingDetail) : List Setter :=
  [.setDescendingSorting detail.isDescending, .setSortingColumn (some detail.sortingColumn)]

/-- The handler `onClearFilter` (lines 54-57). -/
def onClearFilter : List Setter :=
  [.setFilteringText "", .setDelayedFilteringText ""]

/-- The Table prop `onSelectionChange` (line 65). -/
def onSelectionChange (selectedItems : List Row) : List Setter :=
  [.setSelectedItems (fun _ => selectedItems)]

/-- The TextFilter prop `onChange` (line 90). -/
def textFilterOnChange (filteringText : String) : List Setter :=
  [.setFilteringText filteringText]

/-- The TextFilter prop `onDelayedChange` (line 91); it reads `filteringText` of the render
that created it. -/
def textFilterOnDelayedChange (s : State) : List Setter :=
  [.setDelayedFilteringText s.filteringText]

/-- The Pagination prop `onChange` (line 102). -/
def paginationOnChange (currentPageIndex : Int) : List Setter :=
  [.setCurrentPageIndex currentPageIndex]

/-- The `setPreferences` prop given to the Preferences dialog (line 106). -/
def preferencesOnConfirm (value : Preferences) : List Setter :=
  [.setPreferences value]

/-- What can happen to a mounted `ServerSideTable`. -/
inductive Event where
  | itemsChanged (items : List Row)
  | sortingChange (detail : SortingDetail)
  | clearFilter
  | selectionChange (selectedItems : List Row)
  | filterChange (filteringText : String)
  | filterDelayedChange
  | pageChange (currentPageIndex : Int)
  | preferencesChange (value : Preferences)
deriving DecidableEq, Repr

/-- The setter calls made in answer to an event, by the handler of the current render. -/
def handler (s : State) : Event → List Setter
  | .itemsChanged items => itemsEffect items
  | .sortingChange detail => onSortingChange detail
  | .clearFilter => onClearFilter
  | .selectionChange selectedItems => onSelectionChange selectedItems
  | .filterChange filteringText => textFilterOnChange filteringText
  | .filterDelayedChange => textFilterOnDelayedChange s
  | .pageChange currentPageIndex => paginationOnChange currentPageIndex
  | .preferencesChange value => preferencesOnConfirm value

/-- The setter calls of a handler, applied in order. -/
def applySetters (s : State) (calls : List Setter) : State :=
  calls.foldl Setter.apply s

/-- The state after one event. -/
def step (s : State) (e : Event) : State :=
  applySetters s (handler s e)

/-- The state after a sequence of events, oldest first. -/
def run (s : State) (es : List Event) : State :=
  es.foldl step s

/-! ## Render -/

/-- The props given to `FullPageHeader` (lines 78-83). -/
structure HeaderProps where
  selectedItems : List Row
  totalItems : Nat
  serverSide : Bool
deriving DecidableEq, Repr

/-- The props given to `TextFilter` that carry data (lines 88-95). -/
structure TextFilterProps where
  filteringText : String
  countText : String
deriving DecidableEq, Repr

/-- The props given to `Pagination` that carry data (lines 98-104). -/
structure PaginationProps where
  pagesCount : Nat
  currentPageIndex : Int
  disabled : Bool
deriving DecidableEq, Repr

/-- The props given to `Table` that depend on the state, the props or the hook result
(lines 60-107); `preferences` is the value shown by the Preferences dialog. -/
structure TableProps where
  loading : Bool
  selectedItems : List Row
  items : List Row
  sortingColumn : Option ColumnDefinition
  sortingDescending : Bool
  columnDefinitions : List ColumnDefinition
  visibleColumns : List String
  wrapLines : Bool
  header : HeaderProps
  filter : TextFilterProps
  pagination : PaginationProps
  preferences : Preferences
deriving DecidableEq, Repr

/-- The element returned by `ServerSideTable` (lines 59-108), for the state `s` of this render
and the value `r` destructured from `useDistributions(params)`. The helper
`getServerFilterCounterText` of `common/tableCounterStrings` is a parameter. -/
def render (getServerFilterCounterText : List Row → Nat → Int → String) (props : Props)
    (s : State) (r : HookResult) : TableProps :=
  { loading := r.loading
    selectedItems := s.selectedItems
    items := r.items
    sortingColumn := s.sortingColumn
    sortingDescending := s.descendingSorting
    columnDefinitions := props.columnDefinitions
    visibleColumns := s.preferences.visibleContent
    wrapLines := s.preferences.wrapLines
    header :=
      { selectedItems := s.selectedItems
        totalItems := r.totalCount
        serverSide := true }
    filter :=
      { filteringText := s.filteringText
        countText := getServerFilterCounterText r.items r.pagesCount s.preferences.pageSize }
    pagination :=
      { pagesCount := r.pagesCount
        currentPageIndex := r.currentPageIndex
        disabled := r.loading }
    preferences := s.preferences }

/-! ## Reading an event sequence -/

/-- The page index carried by a page-change event. -/
def Event.pageIndex? : Event → Option Int
  | .pageChange currentPageIndex => some currentPageIndex
  | _ => none

/-- The detail carried by a sorting-change event. -/
def Event.sortingDetail? : Event → Option SortingDetail
  | .sortingChange detail => some detail
  | _ => none

/-- The page index of the most recent page-change event of a sequence (oldest first). -/
def lastPageIndex? (es : List Event) : Option Int :=
  es.reverse.findSome? Event.pageIndex?

/-- The detail of the most recent sorting-change event of a sequence (oldest first). -/
def lastSortingDetail? (es : List Event) : Option SortingDetail :=
  es.reverse.findSome? Event.sortingDetail?

/-- The text in the filter input after a sequence of events given newest first: the text of
the most recent keystroke, or the empty string after a clear or when nothing was typed. -/
def liveTextRev : List Event → String
  | [] => ""
  | .filterChange filteringText :: _ => filteringText
  | .clearFilter :: _ => ""
  | _ :: earlier => liveTextRev earlier

/-- The text committed by the most recent settle or clear event of a sequence given newest
first: empty for a clear, and for a settle the text that was in the input at that moment. -/
def committedTextRev : List Event → String
  | [] => ""
  | .clearFilter :: _ => ""
  | .filterDelayedChange :: earlier => liveTextRev earlier
  | _ :: earlier => committedTextRev earlier

/-- The number of events of a sequence (oldest first, starting in state `s`) at which the
query changes: an event counts when the query built after it differs from the query built
before it. -/
def queryChanges (s : State) : List Event → Nat
  | [] => 0
  | e :: es => (if params (step s e) = params s then 0 else 1) + queryChanges (step s e) es

/-! ## Fetch orchestrator -/

namespace FetchOrchestrator

/-- Modelled from the spec: the hook `useDistributions` (module `./hooks`) is not among the
sources. This is the FetchResult of the data model; `requestId` ties the result back to the
QueryState snapshot that produced it, and is that snapshot here. -/
structure FetchResult where
  items : List Row
  totalCount : Nat
  pageCount : Nat
  resolvedPageIndex : Int
  requestId : Params
deriving DecidableEq, Repr

/-- Modelled from the spec: the hook `useDistributions` is not among the sources. These are
the four states of the Fetch Orchestrator: Idle, Loading, Resolved, Failed. -/
inductive Status where
  | idle
  | loading
  | resolved
  | failed
deriving DecidableEq, Repr

/-- Modelled from the spec: the hook `useDistributions` is not among the sources. The Fetch
Orchestrator holds its state-machine state, the captured `activeQuery`, and the FetchResult
it has published, if any. -/
structure Orchestrator where
  status : Status
  activeQuery : Option Params
  published : Option FetchResult
deriving DecidableEq, Repr

/-- Modelled from the spec: the hook `useDistributions` is not among the sources. What
happens to the orchestrator: a new QueryState is issued, a fetch resolves with a result, or
a fetch fails. -/
inductive FetchEvent where
  | issue (query : Params)
  | resolve (result : FetchResult)
  | fail (query : Params)
deriving DecidableEq, Repr

/-- Modelled from the spec: the hook `useDistributions` is not among the sources. The
orchestrator starts Idle, with no active query and nothing published. -/
def initial : Orchestrator :=
  { status := .idle, activeQuery := none, published := none }

/-- Modelled from the spec: the hook `useDistributions` is not among the sources. The
transitions of the Fetch Orchestrator:
* a new QueryState is captured as `activeQuery` and the state becomes Loading; the
  FetchResult held so far is superseded, and "it is discarded once superseded";
* on resolution the originating QueryState is compared with the current `activeQuery`: if
  they differ the result is discarded, if they match the result is published and the state
  becomes Resolved;
* on error the state becomes Failed, with an empty item set; the error of a superseded
  request is, like its result, "ignored on arrival". -/
def transition (o : Orchestrator) : FetchEvent → Orchestrator
  | .issue query => { status := .loading, activeQuery := some query, published := none }
  | .resolve result =>
    if o.activeQuery = some result.requestId then
      { o with status := .resolved, published := some result }
    else
      o
  | .fail query =>
    if o.activeQuery = some query then
      { o with status := .failed, published := none }
    else
      o

/-- The orchestrator after a sequence of events, oldest first. -/
def runEvents (o : Orchestrator) (es : List FetchEvent) : Orchestrator :=
  es.foldl transition o

/-- Modelled from the spec: the hook `useDistributions` is not among the sources. The `items`
exposed to the View Projector: those of the published result, none otherwise. -/
def exposedItems (o : Orchestrator) : List Row :=
  match o.published with
  | some result => result.items
  | none => []

/-- Modelled from the spec: the hook `useDistributions` is not among the sources. The
`loading` flag exposed to the View Projector. -/
def exposedLoading (o : Orchestrator) : Bool :=
  o.status == .loading

/-- The query carried by an issue event. -/
def FetchEvent.query? : FetchEvent → Option Params
  | .issue query => some query
  | _ => none

/-- The most recently issued query of a sequence of events (oldest first). -/
def lastIssued? (es : List FetchEvent) : Option Params :=
  es.reverse.findSome? FetchEvent.query?

/-- A fetch result for the query that asks for page `page` of an otherwise fresh table. -/
def sampleResult (page : Int) (items : List Row) : FetchResult :=
  { items := items
    totalCount := 5
    pageCount := 3
    resolvedPageIndex := page
    requestId := params { initialState ⟨["id"]⟩ ⟨2, ["id"], false⟩ with currentPageIndex := page } }

end FetchOrchestrator

/-- Keeps the first occurrence of every value of a list and drops the later ones: what is
left of a list when each value may appear at most once. -/
def firstOccurrences {α : Type} [DecidableEq α] : List α → List α
  | [] => []
  | x :: xs => x :: (firstOccurrences xs).filter (fun y => decide (y ≠ x))

/-- The reconciled selection in the words of the specification: the sub-sequence of `items`,
in the order of `items`, of the rows that occur in `oldSelected`, each row at most once. -/
def reconciledSubsequence {α : Type} [DecidableEq α] (items oldSelected : List α) : List α :=
  firstOccurrences (items.filter (fun row => decide (row ∈ oldSelected)))

/-! ## Preference store -/

namespace PreferenceStore

/-- Modelled from the spec: the module `common/localStorage` with `useLocalStorage` is not
among the sources. This is what the persistence collaborator holds under a key: a
structurally serialized preferences value, or malformed content. -/
inductive Stored where
  | value (preferences : Preferences)
  | malformed (raw : String)
deriving DecidableEq, Repr

/-- Modelled from the spec: the module `common/localStorage` is not among the sources. The
persistence collaborator is a key-value storage keyed by string identifiers; a key that was
never written holds nothing. -/
abbrev Storage := String → Option Stored

/-- Modelled from the spec: the module `common/localStorage` is not among the sources. The
storage of a first run. -/
def emptyStorage : Storage :=
  fun _ => none

/-- Modelled from the spec: the module `common/localStorage` is not among the sources. The
operation `save(key, Preferences)` writes the value under the key and leaves the other keys
as they are. -/
def save (storage : Storage) (key : String) (preferences : Preferences) : Storage :=
  fun k => if k = key then some (.value preferences) else storage k

/-- Modelled from the spec: the module `common/localStorage` is not among the sources. The
operation `load(key)` returns the stored value, or the supplied default if the key is absent
or holds corrupt data. It reads the storage only, so a fresh instance sees what an earlier
instance saved. -/
def load (storage : Storage) (key : String) (defaultValue : Preferences) : Preferences :=
  match storage key with
  | some (.value preferences) => preferences
  | some (.malformed _) => defaultValue
  | none => defaultValue

end PreferenceStore

end ServerSideTable

/-! # Browser events -/

namespace Dom

/-- The part of a browser event object the handlers act upon. -/
structure BrowserEvent where
  defaultPrevented : Bool
  returnValue : String
deriving DecidableEq, Repr

/-- One operation of a handler on its event object: the call `evt.preventDefault()` or the
assignment `evt.returnValue = value`. -/
inductive EventCall where
  | preventDefault
  | setReturnValue (value : String)
deriving DecidableEq, Repr

/-- The effect of one operation on the event object. -/
def EventCall.apply (evt : BrowserEvent) : EventCall → BrowserEvent
  | .preventDefault => { evt with defaultPrevented := true }
  | .setReturnValue value => { evt with returnValue := value }

end Dom

/-! # Form page with unsaved-changes guard -/

namespace FormUnsavedChanges

/-- The state cells of `App` in `src/pages/form/form-unsaved-changes.index.jsx`, in
declaration order (lines 23-27). -/
structure State where
  toolsIndex : Nat
  toolsOpen : Bool
  navigationOpen : Bool
  dirty : Bool
  modalVisible : Bool
deriving DecidableEq, Repr

/-- The state at mount (lines 23-27). -/
def initialState : State :=
  { toolsIndex := 0
    toolsOpen := false
    navigationOpen := true
    dirty := false
    modalVisible := false }

/-- One call of a state setter of `App`. -/
inductive Setter where
  | setToolsIndex (value : Nat)
  | setToolsOpen (value : Bool)
  | setNavigationOpen (value : Bool)
  | setDirty (value : Bool)
  | setModalVisible (value : Bool)
deriving DecidableEq, Repr

/-- The effect of one setter call on the state. -/
def Setter.apply (s : State) : Setter → State
  | .setToolsIndex value => { s with toolsIndex := value }
  | .setToolsOpen value => { s with toolsOpen := value }
  | .setNavigationOpen value => { s with navigationOpen := value }
  | .setDirty value => { s with dirty := value }
  | .setModalVisible value => { s with modalVisible := value }

/-- One step of a handler: an operation on the event object or a state setter call. -/
inductive Call where
  | onEvent (call : Dom.EventCall)
  | onState (call : Setter)
deriving DecidableEq, Repr

/-- The effect of one handler step on the state and on the event object. -/
def Call.apply (c : State × Dom.BrowserEvent) : Call → State × Dom.BrowserEvent
  | .onEvent call => (c.1, call.apply c.2)
  | .onState call => (call.apply c.1, c.2)

/-- The steps of a handler, performed in order. -/
def perform (s : State) (evt : Dom.BrowserEvent) (calls : List Call) : State × Dom.BrowserEvent :=
  calls.foldl Call.apply (s, evt)

/-- The handler `onBeforeUnload` (lines 37-44); it reads `dirty` of the render that
registered it. -/
def onBeforeUnload (s : State) : List Call :=
  if s.dirty then
    [.onEvent .preventDefault, .onEvent (.setReturnValue "")]
  else
    []

/-- The handler `onNavigate` (lines 46-53). -/
def onNavigate (s : State) : List Call :=
  [.onEvent .preventDefault] ++ (if s.dirty then [.onState (.setModalVisible true)] else [])

/-- The handler `updateTools` (lines 55-58). -/
def updateTools (index : Nat) : List Call :=
  [.onState (.setToolsIndex index), .onState (.setToolsOpen true)]

/-- What can happen to the mounted page; the first three are the navigation events, wired
to `onNavigate` as `onCancelClick` (line 78), `onFollow` of the breadcrumbs (line 114) and
`onFollowHandler` of the side navigation (line 117). -/
inductive Event where
  | cancelClick
  | breadcrumbFollow
  | navigationFollow
  | beforeUnload
  | updateDirty (dirty : Bool)
  | updateTools (index : Nat)
  | modalCancelClick
  | toolsChange (isOpen : Bool)
  | navigationChange (isOpen : Bool)
deriving DecidableEq, Repr

/-- Whether an event is one of the three navigation events. -/
def Event.isNavigation : Event → Bool
  | .cancelClick => true
  | .breadcrumbFollow => true
  | .navigationFollow => true
  | _ => false

/-- The handler steps made in answer to an event, by the handlers of the current render. -/
def handler (s : State) : Event → List Call
  | .cancelClick => onNavigate s
  | .breadcrumbFollow => onNavigate s
  | .navigationFollow => onNavigate s
  | .beforeUnload => onBeforeUnload s
  | .updateDirty dirty => [.onState (.setDirty dirty)]
  | .updateTools index => updateTools index
  | .modalCancelClick => [.onState (.setModalVisible false)]
  | .toolsChange isOpen => [.onState (.setToolsOpen isOpen)]
  | .navigationChange isOpen => [.onState (.setNavigationOpen isOpen)]

/-- The state and the event object after the event `e`, delivered with the object `evt`. -/
def step (s : State) (e : Event) (evt : Dom.BrowserEvent) : State × Dom.BrowserEvent :=
  perform s evt (handler s e)

end FormUnsavedChanges

/-! # One-click delete page -/

namespace DeleteOneClick

/-- A tag of the tag editor. The flags `existing` and `markedForRemoval` may be absent from
the object (`undefined`). -/
structure Tag where
  key : String
  value : String
  existing : Option Bool
  markedForRemoval : Option Bool
deriving DecidableEq, Repr

/-- JavaScript truthiness of an optional boolean flag: `undefined` and `false` are falsy. -/
def truthy : Option Bool → Bool
  | some true => true
  | _ => false

/-- The state cells of `App` in `src/pages/delete/delete-one-click.index.jsx`
(lines 47-49). -/
structure State where
  tags : List Tag
  loading : Bool
  isValid : Bool
deriving DecidableEq, Repr

/-- The state at mount (lines 47-49). -/
def initialState : State :=
  { tags := [], loading := true, isValid := true }

/-- One call of a state setter of `App`. -/
inductive Setter where
  | setTags (value : List Tag)
  | setLoading (value : Bool)
  | setIsValid (value : Bool)
deriving DecidableEq, Repr

/-- The effect of one setter call on the state. -/
def Setter.apply (s : State) : Setter → State
  | .setTags value => { s with tags := value }
  | .setLoading value => { s with loading := value }
  | .setIsValid value => { s with isValid := value }

/-- One step of a handler: an operation on the event object or a state setter call. -/
inductive Call where
  | onEvent (call : Dom.EventCall)
  | onState (call : Setter)
deriving DecidableEq, Repr

/-- The effect of one handler step on the state and on the event object. -/
def Call.apply (c : State × Dom.BrowserEvent) : Call → State × Dom.BrowserEvent
  | .onEvent call => (c.1, call.apply c.2)
  | .onState call => (call.apply c.1, c.2)

/-- The steps of a handler, performed in order. -/
def perform (s : State) (evt : Dom.BrowserEvent) (calls : List Call) : State × Dom.BrowserEvent :=
  calls.foldl Call.apply (s, evt)

/-- The `detail` of a change event of the tag editor. -/
structure ChangeDetail where
  tags : List Tag
  valid : Bool
deriving DecidableEq, Repr

/-- The handler `onChange` (lines 60-63). -/
def onChange (detail : ChangeDetail) : List Call :=
  [.onState (.setTags detail.tags), .onState (.setIsValid detail.valid)]

/-- The handler `onSubmit` (lines 65-70): when valid, every tag is copied with
`existing: true`, then the copies whose `markedForRemoval` is truthy are filtered out. -/
def onSubmit (s : State) : List Call :=
  (if s.isValid then
    [.onState (.setTags
      ((s.tags.map (fun tag => { tag with existing := some true })).filter
        (fun tag => !truthy tag.markedForRemoval)))]
  else
    []) ++ [.onEvent .preventDefault]

/-- The handler `onCancel` (lines 72-74). -/
def onCancel : List Call :=
  [.onState (.setLoading true)]

end DeleteOneClick

namespace ServerSideTable

/-! ## Lemmas on `intersection` -/

section IntersectionLemmas

variable {α : Type} [DecidableEq α]

omit [DecidableEq α] in
theorem length_lt_of_fresh {result other : List α} {v : α} (hnd : result.Nodup)
    (hsub : ∀ x ∈ result, x ∈ other) (hv : v ∈ other) (hfresh : v ∉ result) :
    result.length < other.length := by
  have hnd2 : (v :: result).Nodup := List.nodup_cons.mpr ⟨hfresh, hnd⟩
  have hsub2 : (v :: result) ⊆ other := by
    intro x hx
    rcases List.mem_cons.mp hx with h | h
    · exact h ▸ hv
    · exact hsub x h
  have := (hnd2.subperm hsub2).length_le
  simpa [Nat.lt_iff_add_one_le] using this

theorem mem_intersectionLoop (other : List α) (m : Nat) :
    ∀ (rest result : List α), result.Nodup → (∀ x ∈ result, x ∈ other) →
      result.length + rest.length ≤ m →
      ∀ x, x ∈ intersectionLoop other (min m other.length) rest result ↔
        x ∈ result ∨ (x ∈ rest ∧ x ∈ other) := by
  intro rest
  induction rest with
  | nil => intro result _ _ _ x; simp [intersectionLoop]
  | cons value rest ih =>
    intro result hnd hsub hlen x
    simp only [List.length_cons] at hlen
    unfold intersectionLoop
    by_cases hguard : result.length < min m other.length
    · simp only [hguard, if_true]
      by_cases hpush : value ∉ result ∧ value ∈ other
      · have hc : (!(result.contains value) && other.contains value) = true := by
          simp [hpush.1, hpush.2]
        simp only [hc, if_true]
        have hnd2 : (result ++ [value]).Nodup := by
          rw [List.nodup_append]
          refine ⟨hnd, List.nodup_singleton _, ?_⟩
          intro a ha hb
          rw [List.mem_singleton] at hb
          exact hpush.1 (hb ▸ ha)
        have hsub2 : ∀ y ∈ result ++ [value], y ∈ other := by
          intro y hy
          rcases List.mem_append.mp hy with h | h
          · exact hsub y h
          · rw [List.mem_singleton] at h; exact h ▸ hpush.2
        have hlen2 : (result ++ [value]).length + rest.length ≤ m := by
          simp only [List.length_append, List.length_singleton]; omega
        rw [ih (result ++ [value]) hnd2 hsub2 hlen2 x]
        simp only [List.mem_append, List.mem_cons, List.not_mem_nil, or_false]
        constructor
        · rintro ((h | h) | ⟨h1, h2⟩)
          · exact Or.inl h
          · exact Or.inr ⟨Or.inl h, h ▸ hpush.2⟩
          · exact Or.inr ⟨Or.inr h1, h2⟩
        · rintro (h | ⟨h1 | h1, h2⟩)
          · exact Or.inl (Or.inl h)
          · exact Or.inl (Or.inr h1)
          · exact Or.inr ⟨h1, h2⟩
      · have hc : (!(result.contains value) && other.contains value) = false := by
          by_cases h1 : value ∈ result
          · simp [h1]
          · have h2 : value ∉ other := fun h => hpush ⟨h1, h⟩
            simp [h2]
        simp only [hc, Bool.false_eq_true, if_false]
        rw [ih result hnd hsub (by omega) x]
        simp only [List.mem_cons]
        constructor
        · rintro (h | ⟨h1, h2⟩)
          · exact Or.inl h
          · exact Or.inr ⟨Or.inr h1, h2⟩
        · rintro (h | ⟨h1 | h1, h2⟩)
          · exact Or.inl h
          · by_cases h3 : value ∈ result
            · exact Or.inl (h1 ▸ h3)
            · exact absurd ⟨h3, h1 ▸ h2⟩ hpush
          · exact Or.inr ⟨h1, h2⟩
    · simp only [hguard, if_false]
      constructor
      · exact Or.inl
      · rintro (h | ⟨_, h2⟩)
        · exact h
        · by_contra hx
          have h1 : result.length < other.length := length_lt_of_fresh hnd hsub h2 hx
          exact hguard (lt_min (by omega) h1)

theorem mem_intersection (array other : List α) (x : α) :
    x ∈ intersection array other ↔ x ∈ array ∧ x ∈ other := by
  unfold intersection
  rw [mem_intersectionLoop other array.length array [] List.nodup_nil (by simp) (by simp) x]
  simp

theorem firstOccurrences_filter (p : α → Bool) (l : List α) :
    (firstOccurrences l).filter p = firstOccurrences (l.filter p) := by
  induction l with
  | nil => rfl
  | cons x xs ih =>
    by_cases hp : p x = true
    · simp only [firstOccurrences, List.filter_cons, hp, if_true]
      rw [← ih, List.filter_filter, List.filter_filter]
      congr 1
      apply List.filter_congr
      intro y _
      exact Bool.and_comm _ _
    · simp only [firstOccurrences, List.filter_cons, hp, if_false, Bool.false_eq_true]
      rw [← ih, List.filter_filter]
      apply List.filter_congr
      intro y _
      by_cases hy : p y = true
      · have hne : y ≠ x := fun h => hp (h ▸ hy)
        simp [hy, hne]
      · simp [hy]

theorem firstOccurrences_sublist (l : List α) : (firstOccurrences l).Sublist l := by
  induction l with
  | nil => exact List.Sublist.slnil
  | cons x xs ih =>
    exact List.Sublist.cons₂ x ((List.filter_sublist _).trans ih)

theorem firstOccurrences_nodup (l : List α) : (firstOccurrences l).Nodup := by
  induction l with
  | nil => exact List.nodup_nil
  | cons x xs ih =>
    rw [firstOccurrences, List.nodup_cons]
    refine ⟨?_, ih.filter _⟩
    intro h
    simpa using (List.mem_filter.mp h).2

theorem intersectionLoop_eq (other : List α) (m : Nat) :
    ∀ (rest result : List α), result.Nodup → (∀ x ∈ result, x ∈ other) →
      result.length + rest.length ≤ m →
      intersectionLoop other (min m other.length) rest result =
        result ++ firstOccurrences
          ((rest.filter (fun x => decide (x ∈ other))).filter (fun x => decide (x ∉ result))) := by
  intro rest
  induction rest with
  | nil => intro result _ _ _; simp [intersectionLoop, firstOccurrences]
  | cons value rest ih =>
    intro result hnd hsub hlen
    simp only [List.length_cons] at hlen
    unfold intersectionLoop
    by_cases hguard : result.length < min m other.length
    · simp only [hguard, if_true]
      by_cases hpush : value ∉ result ∧ value ∈ other
      · have hc : (!(result.contains value) && other.contains value) = true := by
          simp [hpush.1, hpush.2]
        simp only [hc, if_true]
        have hnd2 : (result ++ [value]).Nodup := by
          rw [List.nodup_append]
          refine ⟨hnd, List.nodup_singleton _, ?_⟩
          intro a ha hb
          rw [List.mem_singleton] at hb
          exact hpush.1 (hb ▸ ha)
        have hsub2 : ∀ y ∈ result ++ [value], y ∈ other := by
          intro y hy
          rcases List.mem_append.mp hy with h | h
          · exact hsub y h
          · rw [List.mem_singleton] at h; exact h ▸ hpush.2
        have hlen2 : (result ++ [value]).length + rest.length ≤ m := by
          simp only [List.length_append, List.length_singleton]; omega
        rw [ih (result ++ [value]) hnd2 hsub2 hlen2]
        have h1 : decide (value ∈ other) = true := by simp [hpush.2]
        have h2 : decide (value ∉ result) = true := by simp [hpush.1]
        simp only [List.filter_cons, h1, h2, if_true, firstOccurrences,
          firstOccurrences_filter, List.filter_filter, List.append_assoc, List.singleton_append]
        congr 3
        apply List.filter_congr
        intro y _
        by_cases hy : y = value
        · simp [hy]
        · by_cases hy2 : y ∈ result <;> simp [hy, hy2]
      · have hc : (!(result.contains value) && other.contains value) = false := by
          by_cases h1 : value ∈ result
          · simp [h1]
          · have h2 : value ∉ other := fun h => hpush ⟨h1, h⟩
            simp [h2]
        simp only [hc, Bool.false_eq_true, if_false]
        rw [ih result hnd hsub (by omega)]
        congr 2
        by_cases h1 : value ∈ other
        · have h2 : value ∈ result := by
            by_contra h
            exact hpush ⟨h, h1⟩
          simp [List.filter_cons, h1, h2]
        · simp [List.filter_cons, h1]
    · simp only [hguard, if_false]
      have hempty : ((value :: rest).filter (fun x => decide (x ∈ other))).filter
          (fun x => decide (x ∉ result)) = [] := by
        rw [List.filter_eq_nil_iff]
        intro x hx hfresh
        have hxo : x ∈ other := by simpa using (List.mem_filter.mp hx).2
        have hxr : x ∉ result := by simpa using hfresh
        have h1 : result.length < other.length := length_lt_of_fresh hnd hsub hxo hxr
        exact hguard (lt_min (by omega) h1)
      rw [hempty]
      simp [firstOccurrences]

theorem intersection_eq_reconciledSubsequence (array other : List α) :
    intersection array other = reconciledSubsequence array other := by
  unfold intersection reconciledSubsequence
  rw [intersectionLoop_eq other array.length array [] List.nodup_nil (by simp) (by simp)]
  simp

theorem intersection_idempotent (array other : List α) :
    intersection array (intersection array other) = intersection array other := by
  rw [intersection_eq_reconciledSubsequence array (intersection array other),
    intersection_eq_reconciledSubsequence array other]
  unfold reconciledSubsequence
  congr 1
  apply List.filter_congr
  intro x hx
  have h := mem_intersection array other x
  rw [intersection_eq_reconciledSubsequence] at h
  unfold reconciledSubsequence at h
  by_cases hxo : x ∈ other
  · simp [hxo, h.mpr ⟨hx, hxo⟩]
  · have : x ∉ firstOccurrences (array.filter (fun row => decide (row ∈ other))) :=
      fun hmem => hxo (h.mp hmem).2
    simp [hxo, this]

end IntersectionLemmas

/-! ## Lemmas on event sequences -/

theorem run_snoc (s : State) (es : List Event) (e : Event) :
    run s (es ++ [e]) = step (run s es) e := by
  simp [run, List.foldl_append]

theorem currentPageIndex_run (s : State) (es : List Event) :
    (run s es).currentPageIndex = (lastPageIndex? es).getD s.currentPageIndex := by
  induction es using List.reverseRecOn with
  | nil => rfl
  | append_singleton es e ih =>
    rw [run_snoc]
    unfold lastPageIndex? at ih ⊢
    rw [List.reverse_append, List.reverse_singleton, List.singleton_append, List.findSome?_cons]
    cases e <;> simp [Event.pageIndex?] <;> first | exact ih | rfl

theorem sortingColumn_run (s : State) (es : List Event) :
    (run s es).sortingColumn =
      match lastSortingDetail? es with
      | some detail => some detail.sortingColumn
      | none => s.sortingColumn := by
  induction es using List.reverseRecOn with
  | nil => rfl
  | append_singleton es e ih =>
    rw [run_snoc]
    unfold lastSortingDetail? at ih ⊢
    rw [List.reverse_append, List.reverse_singleton, List.singleton_append, List.findSome?_cons]
    cases e <;> simp [Event.sortingDetail?] <;> first | exact ih | rfl

theorem descendingSorting_run (s : State) (es : List Event) :
    (run s es).descendingSorting =
      match lastSortingDetail? es with
      | some detail => detail.isDescending
      | none => s.descendingSorting := by
  induction es using List.reverseRecOn with
  | nil => rfl
  | append_singleton es e ih =>
    rw [run_snoc]
    unfold lastSortingDetail? at ih ⊢
    rw [List.reverse_append, List.reverse_singleton, List.singleton_append, List.findSome?_cons]
    cases e <;> simp [Event.sortingDetail?] <;> first | exact ih | rfl

theorem filteringText_run (props : Props) (stored : Preferences) (es : List Event) :
    (run (initialState props stored) es).filteringText = liveTextRev es.reverse := by
  induction es using List.reverseRecOn with
  | nil => rfl
  | append_singleton es e ih =>
    rw [run_snoc, List.reverse_append, List.reverse_singleton, List.singleton_append]
    cases e <;> simp [liveTextRev] <;> first | exact ih | rfl

theorem delayedFilteringText_run (props : Props) (stored : Preferences) (es : List Event) :
    (run (initialState props stored) es).delayedFilteringText = committedTextRev es.reverse := by
  induction es using List.reverseRecOn with
  | nil => rfl
  | append_singleton es e ih =>
    rw [run_snoc, List.reverse_append, List.reverse_singleton, List.singleton_append]
    cases e <;> simp [committedTextRev] <;>
      first | exact ih | rfl | exact filteringText_run props stored es

/-! ## Lemmas on the fetch orchestrator -/

namespace FetchOrchestrator

theorem runEvents_snoc (o : Orchestrator) (es : List FetchEvent) (e : FetchEvent) :
    runEvents o (es ++ [e]) = transition (runEvents o es) e := by
  simp [runEvents, List.foldl_append]

theorem lastIssued?_snoc (es : List FetchEvent) (e : FetchEvent) :
    lastIssued? (es ++ [e]) = (e.query?).or (lastIssued? es) := by
  unfold lastIssued?
  rw [List.reverse_append, List.reverse_singleton, List.singleton_append, List.findSome?_cons]
  cases e.query? <;> rfl

theorem activeQuery_runEvents (es : List FetchEvent) :
    (runEvents initial es).activeQuery = lastIssued? es := by
  induction es using List.reverseRecOn with
  | nil => rfl
  | append_singleton es e ih =>
    rw [runEvents_snoc, lastIssued?_snoc]
    cases e with
    | issue query => rfl
    | resolve result =>
      simp only [transition, FetchEvent.query?, Option.or]
      split <;> exact ih
    | fail query =>
      simp only [transition, FetchEvent.query?, Option.or]
      split <;> exact ih

theorem published_for_active (es : List FetchEvent) (r : FetchResult)
    (hpub : (runEvents initial es).published = some r) :
    (runEvents initial es).activeQuery = some r.requestId := by
  induction es using List.reverseRecOn with
  | nil => simp [runEvents, initial] at hpub
  | append_singleton es e ih =>
    rw [runEvents_snoc] at hpub ⊢
    cases e with
    | issue query => simp [transition] at hpub
    | resolve result =>
      by_cases hact : (runEvents initial es).activeQuery = some result.requestId
      · simp only [transition, hact, if_true] at hpub ⊢
        rw [← Option.some.inj hpub]
      · simp only [transition, hact, if_false] at hpub ⊢
        exact ih hpub
    | fail query =>
      by_cases hact : (runEvents initial es).activeQuery = some query
      · simp [transition, hact] at hpub
      · simp only [transition, hact, if_false] at hpub ⊢
        exact ih hpub

theorem published_arrived_fresh (es : List FetchEvent) (r : FetchResult)
    (hpub : (runEvents initial es).published = some r) :
    ∃ earlier later, es = earlier ++ .resolve r :: later ∧
      lastIssued? earlier = some r.requestId := by
  induction es using List.reverseRecOn with
  | nil => simp [runEvents, initial] at hpub
  | append_singleton es e ih =>
    rw [runEvents_snoc] at hpub
    cases e with
    | issue query => simp [transition] at hpub
    | resolve result =>
      by_cases hact : (runEvents initial es).activeQuery = some result.requestId
      · simp only [transition, hact, if_true] at hpub
        have hr : result = r := Option.some.inj hpub
        subst hr
        exact ⟨es, [], rfl, (activeQuery_runEvents es) ▸ hact⟩
      · simp only [transition, hact, if_false] at hpub
        obtain ⟨earlier, later, heq, hlast⟩ := ih hpub
        exact ⟨earlier, later ++ [.resolve result], by simp [heq], hlast⟩
    | fail query =>
      by_cases hact : (runEvents initial es).activeQuery = some query
      · simp [transition, hact] at hpub
      · simp only [transition, hact, if_false] at hpub
        obtain ⟨earlier, later, heq, hlast⟩ := ih hpub
        exact ⟨earlier, later ++ [.fail query], by simp [heq], hlast⟩

end FetchOrchestrator

/-! ## Theorems -/

/-- C1: after the reconciliation effect for newly arrived `items`, a row is selected if and
only if it was selected before and is among `items`; selection 1,2,3 reconciled against
items 2,3,4 is exactly 2,3. -/
theorem selection_reconciliation :
    (∀ (s : State) (items : List Row) (row : Row),
        row ∈ (step s (.itemsChanged items)).selectedItems ↔
          row ∈ s.selectedItems ∧ row ∈ items) ∧
    (∀ s : State,
        (step { s with selectedItems := [1, 2, 3] } (.itemsChanged [2, 3, 4])).selectedItems
          = [2, 3]) := by
  refine ⟨?_, ?_⟩
  · intro s items row
    show row ∈ intersection items s.selectedItems ↔ _
    rw [mem_intersection]
    exact And.comm
  · intro s
    rfl

/-- C2: when fetch A is issued, then fetch B for a different query, the exposed items after
both have resolved are exactly those of B, in whichever order the two resolve, and the late
arrival of A changes nothing. For every sequence of issue, resolve and fail events: a result
or an error that arrives for a query other than the most recently issued one changes nothing;
a published result is always the result of the most recently issued query, and it arrived
while that query was the most recently issued one; so the items exposed to the view are
either empty or those of a result of the most recently issued query. -/
theorem stale_response_discarded :
    (∀ (o : FetchOrchestrator.Orchestrator) (rA rB : FetchOrchestrator.FetchResult),
        rA.requestId ≠ rB.requestId →
        FetchOrchestrator.runEvents o
            [.issue rA.requestId, .issue rB.requestId, .resolve rB, .resolve rA]
          = FetchOrchestrator.runEvents o
            [.issue rA.requestId, .issue rB.requestId, .resolve rB] ∧
        FetchOrchestrator.exposedItems (FetchOrchestrator.runEvents o
            [.issue rA.requestId, .issue rB.requestId, .resolve rB, .resolve rA]) = rB.items ∧
        FetchOrchestrator.exposedLoading (FetchOrchestrator.runEvents o
            [.issue rA.requestId, .issue rB.requestId, .resolve rB, .resolve rA]) = false ∧
        FetchOrchestrator.exposedItems (FetchOrchestrator.runEvents o
            [.issue rA.requestId, .issue rB.requestId, .resolve rA, .resolve rB]) = rB.items) ∧
    (∀ (es : List FetchOrchestrator.FetchEvent) (r : FetchOrchestrator.FetchResult),
        FetchOrchestrator.lastIssued? es ≠ some r.requestId →
        FetchOrchestrator.runEvents FetchOrchestrator.initial (es ++ [.resolve r])
          = FetchOrchestrator.runEvents FetchOrchestrator.initial es) ∧
    (∀ (es : List FetchOrchestrator.FetchEvent) (query : Params),
        FetchOrchestrator.lastIssued? es ≠ some query →
        FetchOrchestrator.runEvents FetchOrchestrator.initial (es ++ [.fail query])
          = FetchOrchestrator.runEvents FetchOrchestrator.initial es) ∧
    (∀ (es : List FetchOrchestrator.FetchEvent) (r : FetchOrchestrator.FetchResult),
        (FetchOrchestrator.runEvents FetchOrchestrator.initial es).published = some r →
        FetchOrchestrator.lastIssued? es = some r.requestId) ∧
    (∀ (es : List FetchOrchestrator.FetchEvent) (r : FetchOrchestrator.FetchResult),
        (FetchOrchestrator.runEvents FetchOrchestrator.initial es).published = some r →
        ∃ earlier later, es = earlier ++ .resolve r :: later ∧
          FetchOrchestrator.lastIssued? earlier = some r.requestId) ∧
    (∀ es : List FetchOrchestrator.FetchEvent,
        FetchOrchestrator.exposedItems
            (FetchOrchestrator.runEvents FetchOrchestrator.initial es) = [] ∨
        ∃ r : FetchOrchestrator.FetchResult,
          FetchOrchestrator.lastIssued? es = some r.requestId ∧
          FetchOrchestrator.exposedItems
            (FetchOrchestrator.runEvents FetchOrchestrator.initial es) = r.items) := by
  refine ⟨?_, ?_, ?_, ?_, ?_, ?_⟩
  · intro o rA rB hne
    have hne2 : ¬ (some rB.requestId = some rA.requestId) := fun h => hne (Option.some.inj h).symm
    simp [FetchOrchestrator.runEvents, FetchOrchestrator.transition,
      FetchOrchestrator.exposedItems, FetchOrchestrator.exposedLoading, hne2]
  · intro es r hne
    rw [FetchOrchestrator.runEvents_snoc]
    rw [← FetchOrchestrator.activeQuery_runEvents] at hne
    simp [FetchOrchestrator.transition, hne]
  · intro es query hne
    rw [FetchOrchestrator.runEvents_snoc]
    rw [← FetchOrchestrator.activeQuery_runEvents] at hne
    simp [FetchOrchestrator.transition, hne]
  · intro es r hpub
    rw [← FetchOrchestrator.activeQuery_runEvents]
    exact FetchOrchestrator.published_for_active es r hpub
  · exact FetchOrchestrator.published_arrived_fresh
  · intro es
    cases hpub : (FetchOrchestrator.runEvents FetchOrchestrator.initial es).published with
    | none => exact Or.inl (by simp [FetchOrchestrator.exposedItems, hpub])
    | some r =>
      refine Or.inr ⟨r, ?_, by simp [FetchOrchestrator.exposedItems, hpub]⟩
      rw [← FetchOrchestrator.activeQuery_runEvents]
      exact FetchOrchestrator.published_for_active es r hpub

/-- Witness of C2: page 1 is requested, then page 2; the result for page 2 arrives first and
the late result for page 1 is discarded. -/
theorem stale_response_discarded_witness :
    (FetchOrchestrator.sampleResult 1 [1, 2]).requestId
        ≠ (FetchOrchestrator.sampleResult 2 [3, 4]).requestId ∧
    FetchOrchestrator.exposedItems (FetchOrchestrator.runEvents FetchOrchestrator.initial
      [.issue (FetchOrchestrator.sampleResult 1 [1, 2]).requestId,
       .issue (FetchOrchestrator.sampleResult 2 [3, 4]).requestId,
       .resolve (FetchOrchestrator.sampleResult 2 [3, 4]),
       .resolve (FetchOrchestrator.sampleResult 1 [1, 2])]) = [3, 4] :=
  ⟨by decide,
   (stale_response_discarded.1 FetchOrchestrator.initial
      (FetchOrchestrator.sampleResult 1 [1, 2]) (FetchOrchestrator.sampleResult 2 [3, 4])
      (by decide)).2.1⟩

/-- C3: the current page index given to the Pagination control is the page index reported
by the hook result, whatever page index the component state holds; with page 10 requested
and a result of 3 pages, the control shows the reported index. -/
theorem pagination_shows_server_page_index :
    (∀ (counter : List Row → Nat → Int → String) (props : Props) (s : State) (r : HookResult),
        (render counter props s r).pagination.currentPageIndex = r.currentPageIndex) ∧
    (∀ (counter : List Row → Nat → Int → String) (props : Props) (s : State) (r : HookResult)
        (serverPageIndex : Int),
        (render counter props { s with currentPageIndex := 10 }
            { r with pagesCount := 3, currentPageIndex := serverPageIndex }
          ).pagination.currentPageIndex = serverPageIndex) :=
  ⟨fun _ _ _ _ => rfl, fun _ _ _ _ _ => rfl⟩

/-- C4 (counterexample): from the mount state, the keystrokes `a`, `b` and the empty text
followed by a settle change the query at none of the four events, not at exactly one: the
text that settles is the text already committed. -/
theorem debounce_settle_without_change :
    queryChanges (initialState ⟨["id"]⟩ ⟨30, ["id"], false⟩)
        [.filterChange "a", .filterChange "b", .filterChange "", .filterDelayedChange] = 0 ∧
    ¬ (queryChanges (initialState ⟨["id"]⟩ ⟨30, ["id"], false⟩)
        [.filterChange "a", .filterChange "b", .filterChange "", .filterDelayedChange] = 1) ∧
    params (run (initialState ⟨["id"]⟩ ⟨30, ["id"], false⟩)
        [.filterChange "a", .filterChange "b", .filterChange "", .filterDelayedChange])
      = params (initialState ⟨["id"]⟩ ⟨30, ["id"], false⟩) := by
  decide

/-- C4 (amended): three keystrokes `a`, `b`, `c` in the filter leave the query unchanged
after each of them, and the settle that follows yields the starting query with filter text
`c`; over the four events the query changes exactly once when `c` differs from the filter
text committed before, and not at all when `c` is that text. -/
theorem debounce_query_changes_at_most_once (s : State) (a b c : String) :
    params (step s (.filterChange a)) = params s ∧
    params (run s [.filterChange a, .filterChange b]) = params s ∧
    params (run s [.filterChange a, .filterChange b, .filterChange c]) = params s ∧
    params (run s [.filterChange a, .filterChange b, .filterChange c, .filterDelayedChange])
      = { params s with filtering := { filteringText := c } } ∧
    queryChanges s [.filterChange a, .filterChange b, .filterChange c, .filterDelayedChange]
      = (if c = s.delayedFilteringText then 0 else 1) := by
  refine ⟨rfl, rfl, rfl, rfl, ?_⟩
  have h1 : params (step s (.filterChange a)) = params s := rfl
  have h2 : params (step (step s (.filterChange a)) (.filterChange b))
      = params (step s (.filterChange a)) := rfl
  have h3 : params (step (step (step s (.filterChange a)) (.filterChange b)) (.filterChange c))
      = params (step (step s (.filterChange a)) (.filterChange b)) := rfl
  simp only [queryChanges, if_pos h1, if_pos h2, if_pos h3, Nat.zero_add, Nat.add_zero]
  by_cases hc : c = s.delayedFilteringText
  · subst hc
    rw [if_pos rfl]
    exact if_pos rfl
  · rw [if_neg hc, if_neg]
    intro h
    exact hc (congrArg (fun q : Params => q.filtering.filteringText) h)

/-- C5: after any sequence of events from the mount state, the query handed to the fetch
hook is the query built from the current state, and its fields are the page index of the
most recent page-change event (initially 1), the column and direction of the most recent
sorting-change event (initially the first column definition, ascending), and the text
committed by the most recent settle or clear event (initially empty). -/
theorem active_query_tracks_state (props : Props) (stored : Preferences) (es : List Event) :
    params (run (initialState props stored) es) =
      { pagination :=
          { currentPageIndex := (lastPageIndex? es).getD 1
            pageSize := (run (initialState props stored) es).preferences.pageSize }
        sorting :=
          { sortingColumn :=
              match lastSortingDetail? es with
              | some detail => some detail.sortingColumn
              | none => props.columnDefinitions.head?
            sortingDescending :=
              match lastSortingDetail? es with
              | some detail => detail.isDescending
              | none => false }
        filtering :=
          { filteringText := committedTextRev es.reverse } } := by
  unfold params
  rw [currentPageIndex_run, sortingColumn_run, descendingSorting_run,
    delayedFilteringText_run]
  rfl

/-- C6: a selection-change event carrying the list `selected` makes the selection exactly
`selected`, whatever the previous selection was and without intersecting with any items. -/
theorem user_selection_applied_as_is (s : State) (selected : List Row) :
    (step s (.selectionChange selected)).selectedItems = selected :=
  rfl

/-- C7: after `onClearFilter`, from any state, the live filter text and the committed filter
text are both empty, and the query built from the resulting state has an empty filter text. -/
theorem clear_filter_resets_both_texts (s : State) :
    (step s .clearFilter).filteringText = "" ∧
    (step s .clearFilter).delayedFilteringText = "" ∧
    (params (step s .clearFilter)).filtering.filteringText = "" :=
  ⟨rfl, rfl, rfl⟩

/-- C8 (counterexample): a page-change event that requests page -1 is stored as given, so
the page index of the query is below 1. -/
theorem page_index_not_clamped :
    ¬ (1 ≤ (params (run (initialState ⟨["id"]⟩ ⟨30, ["id"], false⟩)
        [.pageChange (-1)])).pagination.currentPageIndex) := by
  decide

/-- C8 (amended): a page-change event stores the requested page index as given, and in every
state reached from the mount state by a sequence of events whose page-change events all
request an index of at least 1, the page index of the query is at least 1. -/
theorem page_index_at_least_one :
    (∀ (s : State) (i : Int),
        (params (step s (.pageChange i))).pagination.currentPageIndex = i) ∧
    (∀ (props : Props) (stored : Preferences) (es : List Event),
        (∀ i : Int, Event.pageChange i ∈ es → 1 ≤ i) →
        1 ≤ (params (run (initialState props stored) es)).pagination.currentPageIndex) := by
  refine ⟨fun _ _ => rfl, ?_⟩
  intro props stored es
  induction es using List.reverseRecOn with
  | nil => intro _; exact le_refl (1 : Int)
  | append_singleton es e ih =>
    intro h
    have ih2 := ih (fun i hi => h i (List.mem_append_left _ hi))
    rw [run_snoc]
    cases e with
    | pageChange i => exact h i (by simp)
    | _ => exact ih2

/-- Witness of C8 (amended): after page 2 and then page 3 were requested, the page index of
the query is at least 1. -/
theorem page_index_at_least_one_witness :
    (∀ i : Int, Event.pageChange i ∈ [Event.pageChange 2, Event.pageChange 3] → 1 ≤ i) ∧
    1 ≤ (params (run (initialState ⟨["id"]⟩ ⟨30, ["id"], false⟩)
        [.pageChange 2, .pageChange 3])).pagination.currentPageIndex :=
  have h : ∀ i : Int, Event.pageChange i ∈ [Event.pageChange 2, Event.pageChange 3] → 1 ≤ i := by
    intro i hi
    simp at hi
    omega
  ⟨h, page_index_at_least_one.2 _ _ _ h⟩

/-- C9: in every state, hence in every state reached from the mount state by a sequence of
events, the page size of the query is the `pageSize` of the current preferences; a
preferences change alters the query in its page size only, and changing the visible columns
or the line wrapping leaves the query unchanged. -/
theorem page_size_from_preferences :
    (∀ s : State, (params s).pagination.pageSize = s.preferences.pageSize) ∧
    (∀ (props : Props) (stored : Preferences) (es : List Event),
        (params (run (initialState props stored) es)).pagination.pageSize
          = (run (initialState props stored) es).preferences.pageSize) ∧
    (∀ (s : State) (value : Preferences),
        params (step s (.preferencesChange value))
          = { params s with
              pagination := { (params s).pagination with pageSize := value.pageSize } }) ∧
    (∀ (s : State) (visibleContent : List String) (wrapLines : Bool),
        params (step s (.preferencesChange
          { s.preferences with visibleContent := visibleContent, wrapLines := wrapLines }))
          = params s) :=
  ⟨fun _ => rfl, fun _ _ _ => rfl, fun _ _ => rfl, fun _ _ _ => rfl⟩

/-- C10: the Table receives the `items` and `loading` of the hook result, the header its
`totalCount`, the Pagination its `pagesCount`, and the Table's selected items are the
selection state; each of these projected values is the same for any two renders that agree
on the one upstream value it comes from. -/
theorem view_projection_pass_through :
    (∀ (counter : List Row → Nat → Int → String) (props : Props) (s : State) (r : HookResult),
        (render counter props s r).items = r.items ∧
        (render counter props s r).loading = r.loading ∧
        (render counter props s r).header.totalItems = r.totalCount ∧
        (render counter props s r).pagination.pagesCount = r.pagesCount ∧
        (render counter props s r).selectedItems = s.selectedItems) ∧
    (∀ (counter counter2 : List Row → Nat → Int → String) (props props2 : Props)
        (s s2 : State) (r r2 : HookResult),
        (render counter props s r).items
          = (render counter2 props2 s2 { r2 with items := r.items }).items ∧
        (render counter props s r).loading
          = (render counter2 props2 s2 { r2 with loading := r.loading }).loading ∧
        (render counter props s r).header.totalItems
          = (render counter2 props2 s2 { r2 with totalCount := r.totalCount }).header.totalItems ∧
        (render counter props s r).pagination.pagesCount
          = (render counter2 props2 s2
              { r2 with pagesCount := r.pagesCount }).pagination.pagesCount ∧
        (render counter props s r).selectedItems
          = (render counter2 props2 { s2 with selectedItems := s.selectedItems }
              r2).selectedItems) :=
  ⟨fun _ _ _ _ => ⟨rfl, rfl, rfl, rfl, rfl⟩, fun _ _ _ _ _ _ _ _ => ⟨rfl, rfl, rfl, rfl, rfl⟩⟩

/-- C11: for every storage, key and preferences value `P`, loading the key from the storage
in which `P` was saved under that key returns `P`, whatever the storage held before and
whatever default is supplied. -/
theorem preferences_round_trip (storage : PreferenceStore.Storage) (key : String)
    (P defaultValue : Preferences) :
    PreferenceStore.load (PreferenceStore.save storage key P) key defaultValue = P := by
  simp [PreferenceStore.load, PreferenceStore.save]

/-- C14: for all lists `items` and `oldSelected`, the reconciled selection
`intersection(items, oldSelected)` is the sub-sequence of `items` made of the rows that occur
in `oldSelected`, each kept once at its first occurrence: it is a sublist of `items`, has no
duplicates, and holds exactly the rows of `items` that are in `oldSelected`; the order is
that of `items`; and reconciling a second time against the same `items` changes nothing. -/
theorem reconciled_selection_order_and_uniqueness :
    (∀ items oldSelected : List Row,
        intersection items oldSelected = reconciledSubsequence items oldSelected ∧
        (intersection items oldSelected).Sublist items ∧
        (intersection items oldSelected).Nodup ∧
        (∀ row, row ∈ intersection items oldSelected ↔ row ∈ items ∧ row ∈ oldSelected)) ∧
    intersection [2, 3] [3, 2] = ([2, 3] : List Row) ∧
    (∀ items oldSelected : List Row,
        intersection items (intersection items oldSelected) = intersection items oldSelected) ∧
    (∀ (s : State) (items : List Row),
        step (step s (.itemsChanged items)) (.itemsChanged items)
          = step s (.itemsChanged items)) := by
  refine ⟨?_, rfl, intersection_idempotent, ?_⟩
  · intro items oldSelected
    refine ⟨intersection_eq_reconciledSubsequence items oldSelected, ?_, ?_,
      mem_intersection items oldSelected⟩
    · rw [intersection_eq_reconciledSubsequence]
      exact (firstOccurrences_sublist _).trans (List.filter_sublist _)
    · rw [intersection_eq_reconciledSubsequence]
      exact firstOccurrences_nodup _
  · intro s items
    show ({ s with selectedItems := intersection items (intersection items s.selectedItems) }
        : State) = { s with selectedItems := intersection items s.selectedItems }
    rw [intersection_idempotent]

/-- C15: a filter keystroke, a filter settle, a filter clear and a sorting change each leave
the requested page index and the selection unchanged; a sorting change sets the sorting
column and the descending flag to the values of the event and leaves both filter texts
unchanged. -/
theorem filter_and_sort_frame (s : State) (text : String) (detail : SortingDetail) :
    ((step s (.filterChange text)).currentPageIndex = s.currentPageIndex ∧
      (step s (.filterChange text)).selectedItems = s.selectedItems) ∧
    ((step s .filterDelayedChange).currentPageIndex = s.currentPageIndex ∧
      (step s .filterDelayedChange).selectedItems = s.selectedItems) ∧
    ((step s .clearFilter).currentPageIndex = s.currentPageIndex ∧
      (step s .clearFilter).selectedItems = s.selectedItems) ∧
    ((step s (.sortingChange detail)).currentPageIndex = s.currentPageIndex ∧
      (step s (.sortingChange detail)).selectedItems = s.selectedItems) ∧
    (step s (.sortingChange detail)).sortingColumn = some detail.sortingColumn ∧
    (step s (.sortingChange detail)).descendingSorting = detail.isDescending ∧
    (step s (.sortingChange detail)).filteringText = s.filteringText ∧
    (step s (.sortingChange detail)).delayedFilteringText = s.delayedFilteringText :=
  ⟨⟨rfl, rfl⟩, ⟨rfl, rfl⟩, ⟨rfl, rfl⟩, ⟨rfl, rfl⟩, rfl, rfl, rfl, rfl⟩

end ServerSideTable

namespace FormUnsavedChanges

/-- C12: a navigation event (cancel button, breadcrumb or side-navigation link) always has
its default action prevented; it makes the modal visible when the form is dirty and leaves
the visibility of the modal unchanged when the form is not dirty; no other state cell
changes. -/
theorem navigation_shows_modal_when_dirty (s : State) (e : Event) (evt : Dom.BrowserEvent)
    (hnav : e.isNavigation = true) :
    (step s e evt).2.defaultPrevented = true ∧
    (step s e evt).2.returnValue = evt.returnValue ∧
    (s.dirty = true → (step s e evt).1.modalVisible = true) ∧
    (s.dirty = false → (step s e evt).1.modalVisible = s.modalVisible) ∧
    (step s e evt).1 = { s with modalVisible := s.dirty || s.modalVisible } := by
  obtain ⟨toolsIndex, toolsOpen, navigationOpen, dirty, modalVisible⟩ := s
  cases e <;> simp [Event.isNavigation] at hnav <;> cases dirty <;>
    simp [step, handler, onNavigate, perform, Call.apply, Setter.apply, Dom.EventCall.apply]

/-- Witness of C12: with a dirty form and a hidden modal, a click on the cancel button shows
the modal and has its default action prevented. -/
theorem navigation_shows_modal_when_dirty_witness :
    Event.isNavigation .cancelClick = true ∧
    (step { initialState with dirty := true } .cancelClick ⟨false, ""⟩).2.defaultPrevented = true ∧
    (step { initialState with dirty := true } .cancelClick ⟨false, ""⟩).1.modalVisible = true :=
  ⟨rfl,
   (navigation_shows_modal_when_dirty { initialState with dirty := true } .cancelClick
      ⟨false, ""⟩ rfl).1,
   (navigation_shows_modal_when_dirty { initialState with dirty := true } .cancelClick
      ⟨false, ""⟩ rfl).2.2.1 rfl⟩

/-- C13: the `beforeunload` handler calls `preventDefault` and sets `returnValue` to the
empty string if and only if the form is dirty; when the form is dirty the event ends up
cancelled with an empty `returnValue`, and when it is not dirty the handler does nothing, so
the event and the state are left untouched. -/
theorem before_unload_cancels_iff_dirty (s : State) (evt : Dom.BrowserEvent) :
    (onBeforeUnload s = [.onEvent .preventDefault, .onEvent (.setReturnValue "")]
      ↔ s.dirty = true) ∧
    (Call.onEvent .preventDefault ∈ onBeforeUnload s ↔ s.dirty = true) ∧
    (s.dirty = true →
      step s .beforeUnload evt = (s, { defaultPrevented := true, returnValue := "" })) ∧
    (s.dirty = false → onBeforeUnload s = [] ∧ step s .beforeUnload evt = (s, evt)) := by
  obtain ⟨toolsIndex, toolsOpen, navigationOpen, dirty, modalVisible⟩ := s
  cases dirty <;>
    simp [step, handler, onBeforeUnload, perform, Call.apply, Dom.EventCall.apply]

/-- Witness of C13: with a dirty form the event is cancelled, with a clean form it is left
as it was. -/
theorem before_unload_cancels_iff_dirty_witness :
    step { initialState with dirty := true } .beforeUnload ⟨false, "x"⟩
      = ({ initialState with dirty := true }, ⟨true, ""⟩) ∧
    step initialState .beforeUnload ⟨false, "x"⟩ = (initialState, ⟨false, "x"⟩) :=
  ⟨(before_unload_cancels_iff_dirty { initialState with dirty := true } ⟨false, "x"⟩).2.2.1 rfl,
   ((before_unload_cancels_iff_dirty initialState ⟨false, "x"⟩).2.2.2 rfl).2⟩

end FormUnsavedChanges

namespace DeleteOneClick

/-- C16: `onSubmit` always prevents the default action of the submit event and leaves
`loading` and `isValid` as they are; when the editor state is valid the tags become the tags
not marked for removal, in their original order, each with `existing` set to true and its
other fields unchanged; when it is invalid the tags are unchanged. -/
theorem submit_drops_marked_tags (s : State) (evt : Dom.BrowserEvent) :
    (perform s evt (onSubmit s)).2.defaultPrevented = true ∧
    (perform s evt (onSubmit s)).1.loading = s.loading ∧
    (perform s evt (onSubmit s)).1.isValid = s.isValid ∧
    (s.isValid = true →
      (perform s evt (onSubmit s)).1.tags =
        (s.tags.filter (fun tag => !truthy tag.markedForRemoval)).map
          (fun tag => { tag with existing := some true })) ∧
    (s.isValid = false → (perform s evt (onSubmit s)).1.tags = s.tags) := by
  obtain ⟨tags, loading, isValid⟩ := s
  cases isValid
  · simp [onSubmit, perform, Call.apply, Dom.EventCall.apply]
  · simp only [onSubmit, perform, if_true, List.singleton_append, List.foldl_cons,
      List.foldl_nil, Call.apply, Setter.apply, Dom.EventCall.apply, true_and,
      Bool.true_eq_false, false_implies, and_true, forall_const]
    rw [List.filter_map]
    rfl

/-- Witness of C16: of two tags, one marked for removal, a valid submit keeps the other one,
now marked as existing. -/
theorem submit_drops_marked_tags_witness :
    (perform ⟨[⟨"a", "1", some false, some true⟩, ⟨"b", "2", none, none⟩], false, true⟩
        ⟨false, ""⟩
        (onSubmit ⟨[⟨"a", "1", some false, some true⟩, ⟨"b", "2", none, none⟩], false, true⟩)
      ).1.tags = [⟨"b", "2", some true, none⟩] :=
  (submit_drops_marked_tags
    ⟨[⟨"a", "1", some false, some true⟩, ⟨"b", "2", none, none⟩], false, true⟩
    ⟨false, ""⟩).2.2.2.1 rfl

end DeleteOneClick
